import Mathlib

/-
Verification development for the pixel-pony miniapp front end.

The repository `src/src/App.tsx` contains four concatenated variants of the
application:
  * the primary on-chain variant (wallet, approval, `handleRace`,
    `handleRaceComplete` settlement effect),
  * a simulator (demo) variant with local randomness
    (`generateRandomWinners`, simulator `handleRace`),
  * a legacy on-chain variant (older copy, no `isRacing` state and no
    settlement effect),
  * the `ZoraPage` variant (its own `generateRandomWinners`).

This file shallow-embeds the state and the operations of those variants.
JavaScript bigints are modelled as `Nat`; JavaScript truthiness of a
possibly-undefined bigint is modelled by `betTruthy` on `Option Nat`
(`undefined` and `0n` are falsy).  Promise-based awaits are modelled by a
step function over an explicit chain environment (`ChainEnv`) that answers
the `getTransactionReceipt` and `getLogs` calls; a thrown RPC error is a
`none` answer, which the code's `catch` branch handles.  A `setTimeout`
scheduled reset is modelled as an explicit `TimerAction` fired by
`fireTimer`.  Each invocation of an async handler is modelled as one atomic
step, matching the single-threaded event-loop scheduling of the source
(re-invocations happen between completed runs, when the React dependencies
change).
-/

namespace PixelPony

/-- JavaScript truthiness of an optional bigint: `undefined` and `0n` are
falsy, every other value is truthy (used for `!selectedBet`, `!baseFee`,
`allowance && selectedBet` in the source). -/
def betTruthy : Option Nat → Bool
  | none => false
  | some v => v != 0

/-- The known contract address, `PIXEL_PONY_ADDRESS` in `App.tsx` (the hex
address modelled as the corresponding numeral). -/
def PIXEL_PONY_ADDRESS : Nat := 0x2B4652Bd6149E407E3F57190E25cdBa1FC9d37d8

/-- The decoded argument record of a `RaceExecuted` event
(`raceId`/`player` are indexed topics not used by the client and omitted;
the client reads `winners`, `payout`, `won`). -/
structure EventArgs where
  horseId : Nat
  winners : List Nat
  payout : Nat
  won : Bool
deriving Repr, DecidableEq

/-- A raw log as returned by `publicClient.getLogs`: emitting address,
transaction hash, and the decoded `args` (present iff the log decodes as
the `RaceExecuted` event the query was filtered on). -/
structure Log where
  address : Nat
  transactionHash : Nat
  args : Option EventArgs
deriving Repr, DecidableEq

/-- The part of a transaction receipt the client uses: the block number. -/
structure Receipt where
  blockNumber : Nat
deriving Repr, DecidableEq

/-- The chain RPC environment: `receiptAt n` is what the n-th
`getTransactionReceipt` call for the race hash would return (`none` models
a throw, e.g. the receipt not being available), and `logsAt b` is what
`getLogs` scoped to block `b` returns (`none` models an RPC throw; the
returned list is every log of block `b`, before client-side filtering). -/
structure ChainEnv where
  receiptAt : Nat → Option Receipt
  logsAt : Nat → Option (List Log)

/-- The race result record stored by `setRaceResult` in `App.tsx`
(`payout` is kept as the numeric value; the source stores its
`formatEther` rendering). -/
structure RaceOutcome where
  won : Bool
  winners : List Nat
  payout : Nat
deriving Repr, DecidableEq

/-- The React state of the primary variant that the settlement effect
reads and writes.  `hash` is the `useWriteContract` hash (cleared by
`resetWrite`), `hasClient`/`hasAddress` model the presence of
`publicClient`/`address`. -/
structure AppState where
  isConfirmed : Bool
  hash : Option Nat
  hasClient : Bool
  hasAddress : Bool
  isRacing : Bool
  raceHash : Option Nat
  isApproved : Bool
  showTrack : Bool
  showResult : Bool
  raceResult : Option RaceOutcome
  statusMessage : String
deriving Repr, DecidableEq

/-- Status text of the `else` branch when no race event is found. -/
def notFoundMsg : String := "Race complete but results not found. Check your balance!"

/-- Status text of the `catch` branch of `handleRaceComplete`. -/
def raceErrorMsg : String := "Error loading race results. Check console!"

/-- Status text of a winning settlement. -/
def wonMsg : String := "You won!"

/-- Status text of a losing settlement. -/
def lostMsg : String := "Better luck next time!"

/-- The log scan of `handleRaceComplete`: `getLogs` is issued with the
contract address and the `RaceExecuted` event filter (modelled as the
`filter` over the raw block logs), and the client then takes the first
log whose `transactionHash` equals the submitted hash
(`logs.find(log => log.transactionHash === hash)`). -/
def scanLogs (blockLogs : List Log) (h : Nat) : Option Log :=
  (blockLogs.filter fun l => l.address == PIXEL_PONY_ADDRESS && l.args.isSome).find?
    fun l => l.transactionHash == h

/-- The possible outcomes of the settlement data flow of
`handleRaceComplete`: the receipt call threw, the logs call threw, no
decoded event for the hash was found (the `else` branch), or an event was
found with its decoded arguments. -/
inductive SettleOutcome where
  | receiptError
  | logsError
  | eventNotFound
  | found (args : EventArgs)
deriving Repr, DecidableEq

/-- The settlement data flow of `handleRaceComplete` (lines 320-344 of the
primary variant): one `getTransactionReceipt` call, one `getLogs` call on
the receipt block, the first-match scan, and the `raceEvent && raceEvent.args`
check. -/
def settleOutcome (env : ChainEnv) (h : Nat) : SettleOutcome :=
  match env.receiptAt 0 with
  | none => .receiptError
  | some receipt =>
    match env.logsAt receipt.blockNumber with
    | none => .logsError
    | some blockLogs =>
      match scanLogs blockLogs h with
      | none => .eventNotFound
      | some raceEvent =>
        match raceEvent.args with
        | none => .eventNotFound
        | some args => .found args

/-- A scheduled `setTimeout` reset.  The `else` branch schedules
`setShowTrack(false); setIsRacing(false)`; the `catch` branch additionally
schedules `setRaceHash(null)`. -/
inductive TimerAction where
  | hideTrackStopRacing
  | hideTrackStopRacingClearHash
deriving Repr, DecidableEq

/-- The result of one invocation of the settlement effect: the new state,
the scheduled timer (if any), and how many `getTransactionReceipt` /
`getLogs` calls the invocation performed. -/
structure StepResult where
  state : AppState
  timer : Option TimerAction
  receiptCalls : Nat
  logsCalls : Nat
deriving Repr, DecidableEq

/-- The entry guard of `handleRaceComplete`:
`if (!isConfirmed || !hash || !publicClient || !address) return` and
`if (!isRacing || raceHash !== hash) return`. -/
def entryGuard (s : AppState) : Bool :=
  s.isConfirmed && s.hash.isSome && s.hasClient && s.hasAddress &&
    s.isRacing && (s.raceHash == s.hash)

/-- Maps the JS bigint-to-number conversion `w => Number(w)` applied to the
decoded winner entries.  The conversion is exact on every value that can
occur as a horse index, so it is the identity on the `Nat` model. -/
def toNumber (w : Nat) : Nat := w

/-- One invocation of the `handleRaceComplete` effect of the primary
variant.  The four `SettleOutcome` cases correspond to the source's
control flow: `receiptError`/`logsError` are the `catch` branch (status
set to the error text, reset scheduled after the display delay),
`eventNotFound` is the `else` branch (status set to the not-found text,
track hiding scheduled, then the unconditional reset lines run
synchronously), and `found` is the success branch (`setRaceResult`,
`setShowResult(true)`, won/lost status, then the unconditional reset
lines).  `resetWrite()` clears `hash`. -/
def handleRaceComplete (env : ChainEnv) (s : AppState) : StepResult :=
  if entryGuard s then
    match s.hash with
    | none => ⟨s, none, 0, 0⟩
    | some h =>
      let logsCalls : Nat := if (env.receiptAt 0).isSome then 1 else 0
      match settleOutcome env h with
      | .receiptError =>
          ⟨{ s with statusMessage := raceErrorMsg },
            some .hideTrackStopRacingClearHash, 1, logsCalls⟩
      | .logsError =>
          ⟨{ s with statusMessage := raceErrorMsg },
            some .hideTrackStopRacingClearHash, 1, logsCalls⟩
      | .eventNotFound =>
          ⟨{ s with statusMessage := notFoundMsg,
                    isRacing := false, raceHash := none, isApproved := false,
                    hash := none },
            some .hideTrackStopRacing, 1, 1⟩
      | .found a =>
          ⟨{ s with raceResult := some ⟨a.won, a.winners.map toNumber, a.payout⟩,
                    showResult := true,
                    statusMessage := if a.won then wonMsg else lostMsg,
                    isRacing := false, raceHash := none, isApproved := false,
                    hash := none },
            none, 1, 1⟩
  else ⟨s, none, 0, 0⟩

/-- Fires a scheduled timer action (the expiry of the 5-second
`setTimeout` of the `else` / `catch` branches). -/
def fireTimer (s : AppState) : Option TimerAction → AppState
  | none => s
  | some .hideTrackStopRacing => { s with showTrack := false, isRacing := false }
  | some .hideTrackStopRacingClearHash =>
      { s with showTrack := false, isRacing := false, raceHash := none }

/-- The state after one settlement invocation once its scheduled display
delay (if any) has elapsed. -/
def settledState (env : ChainEnv) (s : AppState) : AppState :=
  fireTimer (handleRaceComplete env s).state (handleRaceComplete env s).timer

/-- Modelled from the spec: the bounded-retry receipt poll of section 4.2
step 1 ("Poll `getTransactionReceipt` with bounded retries (fixed
interval, e.g. 500 ms, capped attempt count, e.g. 30)") — this polling
loop is absent from the source, which issues a single call.  `fuel` is the
remaining attempt count; exhausting it yields `none` (ReceiptTimeout). -/
def specPollReceiptAux (receiptAt : Nat → Option Receipt) :
    Nat → Nat → Option Receipt
  | _, 0 => none
  | attempt, fuel + 1 =>
    match receiptAt attempt with
    | some r => some r
    | none => specPollReceiptAux receiptAt (attempt + 1) fuel

/-- Modelled from the spec: poll with the given capped attempt count,
starting from the first attempt. -/
def specPollReceipt (receiptAt : Nat → Option Receipt) (maxAttempts : Nat) :
    Option Receipt :=
  specPollReceiptAux receiptAt 0 maxAttempts

/-- Result type of the spec's receipt-log scan (section 4.2 steps 3-4),
with the distinct `NoContractLogs` error the claim requires. -/
inductive SpecScanResult where
  | noContractLogs
  | eventNotFound
  | found (args : EventArgs)
deriving Repr, DecidableEq

/-- Modelled from the spec: "Filter all logs in the receipt to those whose
emitting address equals the known contract address; zero matches yields
`SettlementError(NoContractLogs)`.  For each candidate log, attempt
non-strict decode against the target event schema; first successful decode
matching the expected event name wins.  No successful decode among
candidates yields `SettlementError(EventNotFound)`." -/
def specScanReceiptLogs (receiptLogs : List Log) : SpecScanResult :=
  let candidates := receiptLogs.filter fun l => l.address == PIXEL_PONY_ADDRESS
  if candidates.isEmpty then .noContractLogs
  else
    match candidates.findSome? (fun l => l.args) with
    | some a => .found a
    | none => .eventNotFound

/-- A race submission as sent by `writeContract` on
`placeBetAndRace(horseId, amount)`. -/
structure Submission where
  horseId : Nat
  amount : Nat
deriving Repr, DecidableEq

/-- The state read and written by the primary variant's `handleRace`,
plus the list of submissions currently in flight (appended by
`writeContract`, cleared when the settlement effect finishes the race). -/
structure RaceState where
  selectedHorse : Option Nat
  selectedBet : Option Nat
  baseFee : Option Nat
  isRacing : Bool
  showTrack : Bool
  inflight : List Submission
deriving Repr, DecidableEq

/-- The primary variant's `handleRace` (lines 262-282):
`if (selectedHorse === null || !selectedBet || !baseFee || isRacing) return`,
otherwise set the racing flag, show the track and submit the transaction. -/
def handleRace (s : RaceState) : RaceState :=
  if s.selectedHorse.isNone || !betTruthy s.selectedBet || !betTruthy s.baseFee
      || s.isRacing then s
  else
    match s.selectedHorse, s.selectedBet with
    | some horse, some bet =>
      { s with isRacing := true, showTrack := true,
               inflight := s.inflight ++ [⟨horse, bet⟩] }
    | _, _ => s

/-- Events of the race life cycle relevant to the in-flight invariant: a
race action, or the settlement effect finishing the in-flight race (which
sets `isRacing` back to false in every branch of `handleRaceComplete` and
its scheduled timers). -/
inductive RaceEv where
  | race
  | settle
deriving Repr, DecidableEq

/-- One event of the race life cycle. -/
def raceStep (s : RaceState) : RaceEv → RaceState
  | .race => handleRace s
  | .settle =>
    if s.isRacing then { s with isRacing := false, inflight := [] } else s

/-- Runs a sequence of race life-cycle events. -/
def runRace (s : RaceState) : List RaceEv → RaceState
  | [] => s
  | e :: es => runRace (raceStep s e) es

/-- The initial race state: nothing selected, nothing in flight. -/
def initRaceState : RaceState :=
  { selectedHorse := none, selectedBet := none, baseFee := none,
    isRacing := false, showTrack := false, inflight := [] }

/-- A race state with everything loaded, used to exercise the guards. -/
def raceReadyState : RaceState :=
  { selectedHorse := some 3, selectedBet := some 10, baseFee := some 1,
    isRacing := false, showTrack := false, inflight := [] }

namespace Legacy

/-- The state read and written by the legacy variant's `handleRace`
(the third copy in `App.tsx`, which has no `isRacing` state). -/
structure RaceState where
  selectedHorse : Option Nat
  selectedBet : Option Nat
  baseFee : Option Nat
  showTrack : Bool
  inflight : List PixelPony.Submission
deriving Repr, DecidableEq

/-- The legacy variant's `handleRace` (lines 1269-1287):
`if (selectedHorse === null || !selectedBet || !baseFee) return` —
no in-flight guard — otherwise show the track and submit. -/
def handleRace (s : RaceState) : RaceState :=
  if s.selectedHorse.isNone || !PixelPony.betTruthy s.selectedBet
      || !PixelPony.betTruthy s.baseFee then s
  else
    match s.selectedHorse, s.selectedBet with
    | some horse, some bet =>
      { s with showTrack := true, inflight := s.inflight ++ [⟨horse, bet⟩] }
    | _, _ => s

/-- A legacy state with everything loaded and no submission in flight. -/
def raceReadyState : RaceState :=
  { selectedHorse := some 3, selectedBet := some 10, baseFee := some 1,
    showTrack := false, inflight := [] }

end Legacy

namespace Approval

/-- The approval-related state of the primary variant: the polled
allowance (as cached by `useReadContract`), the selected bet, and the
derived `isApproved` flag. -/
structure S where
  allowance : Option Nat
  selectedBet : Option Nat
  isApproved : Bool
deriving Repr, DecidableEq

/-- The comparison of the approval effect (lines 202-208):
`if (allowance && selectedBet) setIsApproved(allowance >= selectedBet)
else setIsApproved(false)` — note `0n` is falsy, so a zero allowance or a
zero bet takes the `else` branch. -/
def approvalCheck (a b : Option Nat) : Bool :=
  match a, b with
  | some x, some y => if x != 0 && y != 0 then y ≤ x else false
  | _, _ => false

/-- Re-runs the approval effect on the current state. -/
def applyEffect (s : S) : S :=
  { s with isApproved := approvalCheck s.allowance s.selectedBet }

/-- The events that change the inputs of the approval effect: the user
selects a bet (`selectBet`, which also resets `isApproved` to false) or a
fresh allowance value arrives from the chain. -/
inductive Ev where
  | selectBet (b : Nat)
  | allowanceFetched (a : Nat)
deriving Repr, DecidableEq

/-- The synchronous part of handling an event (the handler body, before
React re-runs the effect). -/
def handleEv (s : S) : Ev → S
  | .selectBet b => { s with selectedBet := some b, isApproved := false }
  | .allowanceFetched a => { s with allowance := some a }

/-- One full step: handler followed by the effect re-run (the effect's
dependency array is `[allowance, selectedBet]`, so it re-runs after
either event). -/
def step (s : S) (e : Ev) : S := applyEffect (handleEv s e)

end Approval

namespace Sim

/-- One `availableHorses` selection step of the simulator's
`generateRandomWinners`: `Math.floor(Math.random() * availableHorses.length)`
is modelled as `r % length` for an arbitrary draw `r` (both range over
exactly the indices `0 .. length-1`), the element at that index is picked
and then `splice`d out. -/
def pickAndRemove (avail : List Nat) (r : Nat) : Nat × List Nat :=
  let j := r % avail.length
  (avail.getD j 0, avail.eraseIdx j)

/-- The simulator's `generateRandomWinners` (lines 742-776 of the second
variant).  `winFlag` models the draw `Math.random() < 0.33`; `r0` the
winning-position draw, `r1 r2 r3` the selection draws.  The code first
builds `availableHorses = [0..15]` and removes the entry at index
`playerHorse` (`availableHorses.splice(playerHorse, 1)`, which on the
identity list removes the value `playerHorse`); on a win the player is
placed at position `r0 % 3` and the remaining positions are filled in
index order from the remaining horses; on a loss three winners are drawn
from the remaining horses. -/
def generateRandomWinners (playerHorse : Nat) (winFlag : Bool)
    (r0 r1 r2 r3 : Nat) : List Nat × Bool :=
  let availableHorses := (List.range 16).eraseIdx playerHorse
  if winFlag then
    let winPosition := r0 % 3
    let pick1 := pickAndRemove availableHorses r1
    let pick2 := pickAndRemove pick1.2 r2
    let winners :=
      if winPosition = 0 then [playerHorse, pick1.1, pick2.1]
      else if winPosition = 1 then [pick1.1, playerHorse, pick2.1]
      else [pick1.1, pick2.1, playerHorse]
    (winners, true)
  else
    let pick1 := pickAndRemove availableHorses r1
    let pick2 := pickAndRemove pick1.2 r2
    let pick3 := pickAndRemove pick2.2 r3
    ([pick1.1, pick2.1, pick3.1], false)

/-- Status text of the simulator's insufficient-balance refusal. -/
def notEnoughMsg : String := "Not enough PONY! Refresh to get more demo tokens."

/-- Status text of a simulated win. -/
def simWonMsg : String := "You won!"

/-- Status text of a simulated loss. -/
def simLostMsg : String := "Try again!"

/-- The simulator-variant state read and written by its `handleRace`. -/
structure SimState where
  selectedHorse : Option Nat
  selectedBet : Option Nat
  isRacing : Bool
  simulatorBalance : Nat
  lastRaceResult : Option (Bool × Nat × List Nat)
  statusMessage : String
  showTrack : Bool
deriving Repr, DecidableEq

/-- The simulator's `handleRace` (lines 779-830), modelled as the state at
the end of a completed run: guard on selections and `isRacing`; refuse
with a message if `simulatorBalance < selectedBet` (no balance change);
otherwise deduct the bet, draw the winners, set
`payout = selectedBet * 3n` on a win and `0n` otherwise, credit the payout
on a win, store the result, and finish with `isRacing` back to false. -/
def handleRace (s : SimState) (winFlag : Bool) (r0 r1 r2 r3 : Nat) : SimState :=
  if s.selectedHorse.isNone || !PixelPony.betTruthy s.selectedBet || s.isRacing then s
  else
    match s.selectedHorse, s.selectedBet with
    | some horse, some bet =>
      if s.simulatorBalance < bet then { s with statusMessage := notEnoughMsg }
      else
        let afterDeduct := s.simulatorBalance - bet
        let g := generateRandomWinners horse winFlag r0 r1 r2 r3
        let payout := if g.2 then bet * 3 else 0
        let finalBalance := if g.2 then afterDeduct + payout else afterDeduct
        { s with isRacing := false, showTrack := true,
                 simulatorBalance := finalBalance,
                 lastRaceResult := some (g.2, payout, g.1),
                 statusMessage := if g.2 then simWonMsg else simLostMsg }
    | _, _ => s

/-- A simulator state ready to race. -/
def simReadyState : SimState :=
  { selectedHorse := some 3, selectedBet := some 10, isRacing := false,
    simulatorBalance := 100, lastRaceResult := none,
    statusMessage := "", showTrack := false }

end Sim

namespace Zora

/-- The `ZoraPage` variant's `generateRandomWinners` (lines 1553-1564):
three draws without replacement from `[0..15]`, modelled with the same
index-draw abstraction as the simulator. -/
def generateRandomWinners (r1 r2 r3 : Nat) : List Nat :=
  let avail0 := List.range 16
  let pick1 := Sim.pickAndRemove avail0 r1
  let pick2 := Sim.pickAndRemove pick1.2 r2
  let pick3 := Sim.pickAndRemove pick2.2 r3
  [pick1.1, pick2.1, pick3.1]

end Zora

/-- The ABI decode of the `RaceExecuted` event data against the schema
`(horseId uint256, winners uint256[3], payout uint256, won bool)` (the
non-indexed parameters; `raceId` and `player` are indexed topics).  The
data is six 256-bit words; the fixed-size array type forces exactly three
winner words; the final word must encode a boolean. -/
def decodeRaceExecutedData (dataWords : List Nat) : Option EventArgs :=
  match dataWords with
  | [h, w0, w1, w2, p, b] =>
    if b ≤ 1 then some ⟨h, [w0, w1, w2], p, b == 1⟩ else none
  | _ => none

/-- A decoded fixture event. -/
def exArgs : EventArgs := ⟨3, [2, 5, 9], 100, true⟩

/-- A fixture log of the contract for transaction hash 7, decoding to
`exArgs`. -/
def exLog : Log := ⟨PIXEL_PONY_ADDRESS, 7, some exArgs⟩

/-- A fixture environment where the receipt is available at once and the
block contains the fixture log. -/
def exEnv : ChainEnv := ⟨fun _ => some ⟨42⟩, fun _ => some [exLog]⟩

/-- A fixture environment where `getTransactionReceipt` always throws. -/
def failEnv : ChainEnv := ⟨fun _ => none, fun _ => some [exLog]⟩

/-- A fixture environment where the receipt is unavailable on the first
attempt and available from the second attempt on. -/
def lateEnv : ChainEnv :=
  ⟨fun n => if n = 0 then none else some ⟨42⟩, fun _ => some [exLog]⟩

/-- A fixture environment whose block has no logs at all. -/
def emptyLogsEnv : ChainEnv := ⟨fun _ => some ⟨42⟩, fun _ => some []⟩

/-- A contract log for our transaction that fails to decode as the target
event. -/
def undecodedLog : Log := ⟨PIXEL_PONY_ADDRESS, 7, none⟩

/-- A fixture environment whose block holds only a non-decoding contract
log. -/
def undecodedEnv : ChainEnv := ⟨fun _ => some ⟨42⟩, fun _ => some [undecodedLog]⟩

/-- The state of the primary variant at the moment the settlement effect
fires for the in-flight race with hash 7. -/
def racingState : AppState :=
  { isConfirmed := true, hash := some 7, hasClient := true, hasAddress := true,
    isRacing := true, raceHash := some 7, isApproved := true, showTrack := true,
    showResult := false, raceResult := none, statusMessage := "" }

/-- Case analysis of the primary variant's `handleRace`: it either leaves
the state unchanged, or (when no race is in flight and everything is
loaded) starts the race and appends exactly one submission. -/
theorem handleRace_cases (s : RaceState) :
    handleRace s = s ∨
    (s.isRacing = false ∧ ∃ horse bet,
      handleRace s = { s with isRacing := true, showTrack := true,
                              inflight := s.inflight ++ [⟨horse, bet⟩] }) := by
  unfold handleRace
  split
  · exact Or.inl rfl
  · next hguard =>
    have hrac : s.isRacing = false := by
      by_contra hrt
      exact hguard (by simp [Bool.not_eq_false] at hrt; simp [hrt])
    split
    · next horse bet _ _ => exact Or.inr ⟨hrac, horse, bet, rfl⟩
    · exact Or.inl rfl

/-- The in-flight invariant is preserved by every race life-cycle event. -/
theorem raceStep_invariant (s : RaceState) (e : RaceEv)
    (h1 : s.inflight.length ≤ 1) (h2 : s.isRacing = false → s.inflight = []) :
    (raceStep s e).inflight.length ≤ 1 ∧
      ((raceStep s e).isRacing = false → (raceStep s e).inflight = []) := by
  cases e with
  | settle =>
    by_cases hr : s.isRacing = true <;> simp [raceStep, hr, h1, h2]
  | race =>
    rcases handleRace_cases s with heq | ⟨hrac, horse, bet, heq⟩
    · simpa [raceStep, heq] using ⟨h1, h2⟩
    · have hempty : s.inflight = [] := h2 hrac
      simp [raceStep, heq, hempty]

/-- The in-flight invariant holds along every run. -/
theorem runRace_invariant (es : List RaceEv) (s : RaceState)
    (h1 : s.inflight.length ≤ 1) (h2 : s.isRacing = false → s.inflight = []) :
    (runRace s es).inflight.length ≤ 1 := by
  induction es generalizing s with
  | nil => exact h1
  | cons e es ih =>
    exact ih _ (raceStep_invariant s e h1 h2).1 (raceStep_invariant s e h1 h2).2

/-- C4 counterexample: the claim covers both `handleRace` variants it
cites, but the legacy variant (lines 1269-1287) has no in-flight guard:
from a ready state, two consecutive race actions submit two transactions,
so the second action while one race is in flight is not a no-op and two
submissions are in flight at once. -/
theorem legacy_double_submission :
    (Legacy.handleRace (Legacy.handleRace Legacy.raceReadyState)).inflight.length = 2 := by
  decide

/-- C4 (amended): in the primary variant, `handleRace` is a no-op while a
race is in flight and while the base fee is not loaded, and along every
event run starting from the initial state at most one submission is in
flight at any time. -/
theorem race_action_guarded_single_submission :
    (∀ s : RaceState, s.isRacing = true → handleRace s = s) ∧
    (∀ s : RaceState, s.baseFee = none → handleRace s = s) ∧
    (∀ es : List RaceEv, (runRace initRaceState es).inflight.length ≤ 1) := by
  refine ⟨?_, ?_, ?_⟩
  · intro s h; simp [handleRace, h]
  · intro s h; simp [handleRace, h, betTruthy]
  · intro es
    exact runRace_invariant es initRaceState (by simp [initRaceState]) (fun _ => rfl)

/-- C4 witness: concrete instances of the guards and of a run with two
race actions and one settlement, ending with at most one submission in
flight. -/
theorem race_action_guarded_single_submission_witness :
    ({ raceReadyState with isRacing := true } : RaceState).isRacing = true ∧
    handleRace { raceReadyState with isRacing := true } =
      { raceReadyState with isRacing := true } ∧
    (runRace initRaceState [.race, .race, .settle, .race]).inflight.length ≤ 1 :=
  ⟨rfl,
   race_action_guarded_single_submission.1 { raceReadyState with isRacing := true } rfl,
   race_action_guarded_single_submission.2.2 [.race, .race, .settle, .race]⟩

/-- C5: the derived approval flag is set only by the comparison effect, so
after any event step it is true only when the cached allowance is present
and at least the selected bet; and the `selectBet` handler itself resets
the flag to false (until the effect re-establishes it). -/
theorem approved_only_when_allowance_covers_bet :
    (∀ (s : Approval.S) (e : Approval.Ev),
        (Approval.step s e).isApproved = true →
        ∃ a b, (Approval.step s e).allowance = some a ∧
          (Approval.step s e).selectedBet = some b ∧ b ≤ a) ∧
    (∀ (s : Approval.S) (b : Nat),
        (Approval.handleEv s (.selectBet b)).isApproved = false) := by
  constructor
  · intro s e happ
    rcases ha : (Approval.handleEv s e).allowance with _ | a <;>
      rcases hb : (Approval.handleEv s e).selectedBet with _ | b <;>
        simp [Approval.step, Approval.applyEffect, Approval.approvalCheck, ha, hb] at happ ⊢
    rcases happ with ⟨⟨_, _⟩, hle⟩
    exact hle
  · intro s b; rfl

/-- C5 witness: with allowance 20 cached, selecting bet 10 ends approved,
and the theorem yields the covering allowance. -/
theorem approved_only_when_allowance_covers_bet_witness :
    (Approval.step ⟨some 20, none, false⟩ (.selectBet 10)).isApproved = true ∧
    (∃ a b, (Approval.step ⟨some 20, none, false⟩ (.selectBet 10)).allowance = some a ∧
      (Approval.step ⟨some 20, none, false⟩ (.selectBet 10)).selectedBet = some b ∧
      b ≤ a) :=
  ⟨by decide,
   approved_only_when_allowance_covers_bet.1 ⟨some 20, none, false⟩ (.selectBet 10)
     (by decide)⟩

/-- The simulator's winner generator returns the win flag it was drawn
with. -/
theorem generateRandomWinners_snd (p : Nat) (f : Bool) (r0 r1 r2 r3 : Nat) :
    (Sim.generateRandomWinners p f r0 r1 r2 r3).2 = f := by
  cases f <;> simp [Sim.generateRandomWinners]

/-- C9: the simulator refuses a race when the balance is strictly below
the bet, leaving everything but the status text unchanged; an accepted
race records payout `3 * bet` exactly on a win and `0` otherwise, and the
net balance change is `+2 * bet` on a win and `-bet` on a loss. -/
theorem simulator_race_balance (s : Sim.SimState) (horse bet : Nat)
    (winFlag : Bool) (r0 r1 r2 r3 : Nat)
    (hh : s.selectedHorse = some horse) (hb : s.selectedBet = some bet)
    (hbet : bet ≠ 0) (hr : s.isRacing = false) :
    (s.simulatorBalance < bet →
      Sim.handleRace s winFlag r0 r1 r2 r3 = { s with statusMessage := Sim.notEnoughMsg }) ∧
    (bet ≤ s.simulatorBalance →
      ((Sim.handleRace s winFlag r0 r1 r2 r3).lastRaceResult =
          some (winFlag, if winFlag then bet * 3 else 0,
                (Sim.generateRandomWinners horse winFlag r0 r1 r2 r3).1) ∧
        (winFlag = true →
          (Sim.handleRace s winFlag r0 r1 r2 r3).simulatorBalance =
            s.simulatorBalance + 2 * bet) ∧
        (winFlag = false →
          (Sim.handleRace s winFlag r0 r1 r2 r3).simulatorBalance =
            s.simulatorBalance - bet))) := by
  constructor
  · intro hlt
    simp [Sim.handleRace, hh, hb, hr, betTruthy, hbet, hlt]
  · intro hle
    have hnlt : ¬ s.simulatorBalance < bet := not_lt.mpr hle
    constructor
    · simp [Sim.handleRace, hh, hb, hr, betTruthy, hbet, hnlt,
            generateRandomWinners_snd]
    constructor
    · intro hw
      simp [Sim.handleRace, hh, hb, hr, betTruthy, hbet, hnlt,
            generateRandomWinners_snd, hw]
      omega
    · intro hw
      simp [Sim.handleRace, hh, hb, hr, betTruthy, hbet, hnlt,
            generateRandomWinners_snd, hw]

/-- C9 witness: a concrete simulator state with balance 100 and bet 10,
exercised on the winning draw. -/
theorem simulator_race_balance_witness :
    ((Sim.handleRace Sim.simReadyState true 0 1 2 3).lastRaceResult =
        some (true, if true then 10 * 3 else 0,
              (Sim.generateRandomWinners 3 true 0 1 2 3).1) ∧
      (true = true →
        (Sim.handleRace Sim.simReadyState true 0 1 2 3).simulatorBalance =
          Sim.simReadyState.simulatorBalance + 2 * 10) ∧
      (true = false →
        (Sim.handleRace Sim.simReadyState true 0 1 2 3).simulatorBalance =
          Sim.simReadyState.simulatorBalance - 10)) :=
  (simulator_race_balance Sim.simReadyState 3 10 true 0 1 2 3
    rfl rfl (by decide) rfl).2 (by decide)

/-- C3: when the obtained block contains no log that decodes as the
target `RaceExecuted` event for the submitted transaction, the effect
sets the explicit results-not-found status text, records no race outcome
(`raceResult` and `showResult` are unchanged), and the status differs
from both the loss and the win display. -/
theorem no_event_gives_explicit_error (env : ChainEnv) (s : AppState) (h : Nat)
    (hh : s.hash = some h) (hg : entryGuard s = true)
    (hn : settleOutcome env h = .eventNotFound) :
    (handleRaceComplete env s).state.statusMessage = notFoundMsg ∧
    (handleRaceComplete env s).state.raceResult = s.raceResult ∧
    (handleRaceComplete env s).state.showResult = s.showResult ∧
    notFoundMsg ≠ lostMsg ∧ notFoundMsg ≠ wonMsg := by
  refine ⟨?_, ?_, ?_, by decide, by decide⟩ <;>
    simp [handleRaceComplete, hg, hh, hn]

/-- C3 witness: an environment whose block has no logs at all, exercised
on the in-flight racing state. -/
theorem no_event_gives_explicit_error_witness :
    settleOutcome emptyLogsEnv 7 = .eventNotFound ∧
    ((handleRaceComplete emptyLogsEnv racingState).state.statusMessage = notFoundMsg ∧
     (handleRaceComplete emptyLogsEnv racingState).state.raceResult =
       racingState.raceResult ∧
     (handleRaceComplete emptyLogsEnv racingState).state.showResult =
       racingState.showResult ∧
     notFoundMsg ≠ lostMsg ∧ notFoundMsg ≠ wonMsg) :=
  ⟨by decide,
   no_event_gives_explicit_error emptyLogsEnv racingState 7 rfl rfl (by decide)⟩

/-- C8: every error path of the settlement effect (receipt throw, logs
throw, event not found) is handled inside the effect — the step is a
total function, nothing propagates — and converts the failure into
user-visible status text; once the scheduled display delay fires, the
session is idle again: not racing, no active race hash, track hidden,
and no outcome was recorded. -/
theorem settlement_errors_caught_and_reset (env : ChainEnv) (s : AppState) (h : Nat)
    (hh : s.hash = some h) (hg : entryGuard s = true)
    (herr : settleOutcome env h = .receiptError ∨ settleOutcome env h = .logsError ∨
            settleOutcome env h = .eventNotFound) :
    ((handleRaceComplete env s).state.statusMessage = raceErrorMsg ∨
     (handleRaceComplete env s).state.statusMessage = notFoundMsg) ∧
    (settledState env s).isRacing = false ∧
    (settledState env s).raceHash = none ∧
    (settledState env s).showTrack = false ∧
    (settledState env s).raceResult = s.raceResult := by
  rcases herr with hc | hc | hc <;>
    simp [handleRaceComplete, settledState, fireTimer, hg, hh, hc]

/-- C8 witness: the environment whose receipt call always throws,
exercised on the in-flight racing state. -/
theorem settlement_errors_caught_and_reset_witness :
    settleOutcome failEnv 7 = .receiptError ∧
    (((handleRaceComplete failEnv racingState).state.statusMessage = raceErrorMsg ∨
      (handleRaceComplete failEnv racingState).state.statusMessage = notFoundMsg) ∧
     (settledState failEnv racingState).isRacing = false ∧
     (settledState failEnv racingState).raceHash = none ∧
     (settledState failEnv racingState).showTrack = false ∧
     (settledState failEnv racingState).raceResult = racingState.raceResult) :=
  ⟨by decide,
   settlement_errors_caught_and_reset failEnv racingState 7 rfl rfl
     (Or.inl (by decide))⟩

/-- C1 counterexample: an oracle whose receipt is not yet available on the
first attempt but available from the second.  The claimed bounded-retry
poll (30 attempts) succeeds on it, but the code behaves exactly as it does
when the receipt never appears: one receipt call, the generic error status
(there is no ReceiptTimeout error), and no outcome recorded — the flow
does not swallow and retry the transient failure. -/
theorem receipt_poll_counterexample :
    specPollReceipt lateEnv.receiptAt 30 = some ⟨42⟩ ∧
    handleRaceComplete lateEnv racingState = handleRaceComplete failEnv racingState ∧
    (handleRaceComplete lateEnv racingState).state.statusMessage = raceErrorMsg ∧
    (handleRaceComplete lateEnv racingState).state.raceResult = none ∧
    (handleRaceComplete lateEnv racingState).receiptCalls = 1 := by
  exact ⟨by decide, by decide, by decide, by decide, by decide⟩

/-- C1 (amended): the settlement flow issues a single
`getTransactionReceipt` call — its behaviour is insensitive to what the
oracle would answer on any later attempt — and when that single call
fails, the run performs exactly one receipt call, sets the generic error
status (no ReceiptTimeout distinction exists), records no outcome, and
after the scheduled display delay the session is idle again. -/
theorem receipt_single_attempt_no_retry (env env2 : ChainEnv) (s : AppState) (h : Nat)
    (hh : s.hash = some h) (hg : entryGuard s = true)
    (hagree : env2.receiptAt 0 = env.receiptAt 0)
    (hlogs : env2.logsAt = env.logsAt) :
    handleRaceComplete env2 s = handleRaceComplete env s ∧
    (env.receiptAt 0 = none →
      (handleRaceComplete env s).receiptCalls = 1 ∧
      (handleRaceComplete env s).state.statusMessage = raceErrorMsg ∧
      (handleRaceComplete env s).state.raceResult = s.raceResult ∧
      (settledState env s).isRacing = false ∧
      (settledState env s).raceHash = none ∧
      (settledState env s).showTrack = false) := by
  have hsoeq : settleOutcome env2 h = settleOutcome env h := by
    unfold settleOutcome
    rw [hagree, hlogs]
  constructor
  · simp only [handleRaceComplete, hg, if_true, hh]
    rw [hagree, hsoeq]
  · intro hfail
    have hso : settleOutcome env h = .receiptError := by
      unfold settleOutcome
      rw [hfail]
    refine ⟨?_, ?_, ?_, ?_, ?_, ?_⟩ <;>
      simp [handleRaceComplete, settledState, fireTimer, hg, hh, hso]

/-- C1 amended witness: `lateEnv` and `failEnv` agree on the first
attempt (both fail there) and on the logs, so the code treats them
identically, and the failure clauses hold concretely. -/
theorem receipt_single_attempt_no_retry_witness :
    (handleRaceComplete lateEnv racingState = handleRaceComplete failEnv racingState ∧
     (failEnv.receiptAt 0 = none →
       (handleRaceComplete failEnv racingState).receiptCalls = 1 ∧
       (handleRaceComplete failEnv racingState).state.statusMessage = raceErrorMsg ∧
       (handleRaceComplete failEnv racingState).state.raceResult =
         racingState.raceResult ∧
       (settledState failEnv racingState).isRacing = false ∧
       (settledState failEnv racingState).raceHash = none ∧
       (settledState failEnv racingState).showTrack = false)) :=
  receipt_single_attempt_no_retry failEnv lateEnv racingState 7 rfl rfl rfl rfl

/-- C2: after one settlement invocation for the in-flight hash has
completed (including its scheduled display delay, if any), a second
invocation for the same hash stops at the entry guard: it changes no
state and performs zero receipt and zero logs calls, so the
receipt-logs-decode sequence is not re-run and at most one outcome is
ever recorded; moreover, starting from a fresh race (no stored outcome),
an outcome exists after settlement exactly when the settlement located a
decodable `RaceExecuted` event for the hash. -/
theorem settlement_idempotent (env : ChainEnv) (s : AppState) (h : Nat)
    (hh : s.hash = some h) (hg : entryGuard s = true)
    (hres : s.raceResult = none) :
    handleRaceComplete env (settledState env s) = ⟨settledState env s, none, 0, 0⟩ ∧
    ((settledState env s).raceResult.isSome ↔ ∃ a, settleOutcome env h = .found a) := by
  have hrac : (settledState env s).isRacing = false := by
    rcases hso : settleOutcome env h with _ | _ | _ | a <;>
      simp [settledState, handleRaceComplete, fireTimer, hg, hh, hso]
  have hguard : entryGuard (settledState env s) = false := by
    simp [entryGuard, hrac]
  refine ⟨?_, ?_⟩
  · simp [handleRaceComplete, hguard]
  · rcases hso : settleOutcome env h with _ | _ | _ | a <;>
      simp [settledState, handleRaceComplete, fireTimer, hg, hh, hso, hres]

/-- C2 witness: the fixture environment settles hash 7 successfully; the
second invocation is a guarded no-op with zero chain calls, and the
outcome exists because the event was found. -/
theorem settlement_idempotent_witness :
    (handleRaceComplete exEnv (settledState exEnv racingState) =
      ⟨settledState exEnv racingState, none, 0, 0⟩ ∧
     ((settledState exEnv racingState).raceResult.isSome ↔
       ∃ a, settleOutcome exEnv 7 = .found a)) :=
  settlement_idempotent exEnv racingState 7 rfl rfl rfl

/-- C6 counterexample: the spec scan distinguishes an empty candidate set
(`NoContractLogs`) from candidates that fail to decode (`EventNotFound`),
but the code treats the two situations identically: with zero logs and
with a single non-decoding contract log, the settlement effect produces
the very same step (same state, same generic results-not-found status) —
there is no distinct `NoContractLogs` result anywhere in the code. -/
theorem scan_no_contract_logs_counterexample :
    specScanReceiptLogs [] = .noContractLogs ∧
    specScanReceiptLogs [undecodedLog] = .eventNotFound ∧
    handleRaceComplete emptyLogsEnv racingState =
      handleRaceComplete undecodedEnv racingState ∧
    (handleRaceComplete emptyLogsEnv racingState).state.statusMessage = notFoundMsg := by
  exact ⟨by decide, by decide, by decide, by decide⟩

/-- C6 (amended): the settlement scan takes the block's logs already
filtered by the contract address and by decoding as the target event, and
returns the first log in block-log order whose transaction hash is the
submitted one — an explicit ordered scan with a deterministic first-match
tie-break.  Every hit carries the contract address, the submitted hash and
decoded arguments; with zero logs the scan is empty and the uniform
not-found path is taken. -/
theorem settlement_scan_first_match (blockLogs : List Log) (h : Nat) :
    scanLogs blockLogs h =
      blockLogs.find? (fun l =>
        (l.address == PIXEL_PONY_ADDRESS && l.args.isSome) && l.transactionHash == h) ∧
    (∀ l, scanLogs blockLogs h = some l →
      l.address = PIXEL_PONY_ADDRESS ∧ l.transactionHash = h ∧ l.args.isSome = true) ∧
    scanLogs [] h = none := by
  refine ⟨?_, ?_, rfl⟩
  · rw [scanLogs]
    induction blockLogs with
    | nil => rfl
    | cons x t ih =>
      by_cases h1 : (x.address == PIXEL_PONY_ADDRESS && x.args.isSome) = true
      · by_cases h2 : (x.transactionHash == h) = true
        · simp [List.filter_cons, List.find?_cons, h1, h2]
        · rw [Bool.not_eq_true] at h2
          simp [List.filter_cons, List.find?_cons, h1, h2, ih]
      · rw [Bool.not_eq_true] at h1
        simp [List.filter_cons, h1, ih]
  · intro l hsl
    simp only [scanLogs] at hsl
    have hpred := List.find?_some hsl
    have hmem := List.mem_of_find?_eq_some hsl
    rw [List.mem_filter] at hmem
    have haddr := hmem.2
    simp only [Bool.and_eq_true, beq_iff_eq] at haddr hpred
    exact ⟨haddr.1, hpred, haddr.2⟩

/-- C6 amended witness: the scan on a singleton block finds the fixture
log first. -/
theorem settlement_scan_first_match_witness :
    (scanLogs [exLog] 7 =
      [exLog].find? (fun l =>
        (l.address == PIXEL_PONY_ADDRESS && l.args.isSome) && l.transactionHash == 7) ∧
     (∀ l, scanLogs [exLog] 7 = some l →
       l.address = PIXEL_PONY_ADDRESS ∧ l.transactionHash = 7 ∧ l.args.isSome = true) ∧
     scanLogs [] 7 = none) :=
  settlement_scan_first_match [exLog] 7

/-- C7 counterexample: the event decode enforces only the ABI type
`uint256[3]`.  A type-correct event whose winner words repeat decodes
successfully and extracts the non-distinct list `[0, 0, 0]`, and one with
words `20, 21, 22` decodes successfully and extracts entries outside the
0-15 range: neither distinctness nor the range is guaranteed by the
client for every successfully decoded event. -/
theorem decode_winners_counterexample :
    (∃ a, decodeRaceExecutedData [3, 0, 0, 0, 7, 1] = some a ∧
      ¬ (a.winners.map toNumber).Nodup) ∧
    (∃ a, decodeRaceExecutedData [3, 20, 21, 22, 7, 0] = some a ∧
      ¬ ∀ w ∈ a.winners.map toNumber, w < 16) := by
  exact ⟨⟨⟨3, [0, 0, 0], 7, true⟩, by decide, by decide⟩,
         ⟨⟨3, [20, 21, 22], 7, false⟩, by decide, by decide⟩⟩

/-- C7 (amended): every successfully decoded `RaceExecuted` event has a
winner list of length exactly 3 — forced by the fixed-size ABI type — and
the client's extraction (`Number` conversion) preserves the entries, so
the extracted list is exactly the three winner words the contract
emitted: distinctness and the 0-15 range hold for the extracted outcome
precisely when the emitted words satisfy them. -/
theorem decoded_winners_extracted (ws : List Nat) (a : EventArgs)
    (hdec : decodeRaceExecutedData ws = some a) :
    a.winners.length = 3 ∧ a.winners.map toNumber = a.winners ∧
    ∃ h w0 w1 w2 p b, ws = [h, w0, w1, w2, p, b] ∧ a.winners = [w0, w1, w2] := by
  unfold decodeRaceExecutedData at hdec
  split at hdec
  · next h w0 w1 w2 p b =>
    split at hdec
    · injection hdec with hdec
      subst hdec
      exact ⟨rfl, by simp [toNumber], h, w0, w1, w2, p, b, rfl, rfl⟩
    · exact absurd hdec (by simp)
  · exact absurd hdec (by simp)

/-- C7 amended witness: the fixture event data decodes and the extraction
yields its three winner words. -/
theorem decoded_winners_extracted_witness :
    ((⟨3, [2, 5, 9], 100, true⟩ : EventArgs).winners.length = 3 ∧
     ((⟨3, [2, 5, 9], 100, true⟩ : EventArgs).winners.map toNumber =
       (⟨3, [2, 5, 9], 100, true⟩ : EventArgs).winners) ∧
     ∃ h w0 w1 w2 p b, [3, 2, 5, 9, 100, 1] = [h, w0, w1, w2, p, b] ∧
       (⟨3, [2, 5, 9], 100, true⟩ : EventArgs).winners = [w0, w1, w2]) :=
  decoded_winners_extracted [3, 2, 5, 9, 100, 1] ⟨3, [2, 5, 9], 100, true⟩ (by decide)

/-- In a duplicate-free list, the element at an index is absent from the
list with that index erased (the `splice` step removes the picked horse
for good). -/
theorem getElem_not_mem_eraseIdx {l : List Nat} (hnd : l.Nodup) {j : Nat}
    (hj : j < l.length) : l[j] ∉ l.eraseIdx j := by
  intro hmem
  rcases List.mem_eraseIdx_iff_getElem.mp hmem with ⟨i, hi, hij, hEq⟩
  exact hij ((List.Nodup.getElem_inj_iff hnd).mp hEq)

/-- Specification of one selection step of the winner generators: the
pick is a member, the remainder is a duplicate-free subset missing the
pick, and exactly one element shorter. -/
theorem pickAndRemove_spec (avail : List Nat) (r : Nat) (hne : avail ≠ [])
    (hnd : avail.Nodup) :
    (Sim.pickAndRemove avail r).1 ∈ avail ∧
    (Sim.pickAndRemove avail r).2 ⊆ avail ∧
    (Sim.pickAndRemove avail r).2.Nodup ∧
    (Sim.pickAndRemove avail r).1 ∉ (Sim.pickAndRemove avail r).2 ∧
    (Sim.pickAndRemove avail r).2.length = avail.length - 1 := by
  have hpos : 0 < avail.length := List.length_pos.mpr hne
  have hj : r % avail.length < avail.length := Nat.mod_lt _ hpos
  have h1 : (Sim.pickAndRemove avail r).1 = avail[r % avail.length] := by
    simp only [Sim.pickAndRemove]
    exact List.getD_eq_getElem _ _ hj
  have h2 : (Sim.pickAndRemove avail r).2 = avail.eraseIdx (r % avail.length) := rfl
  refine ⟨?_, ?_, ?_, ?_, ?_⟩
  · rw [h1]; exact List.getElem_mem hj
  · rw [h2]; exact (List.eraseIdx_sublist avail _).subset
  · rw [h2]; exact List.Nodup.sublist (List.eraseIdx_sublist avail _) hnd
  · rw [h1, h2]; exact getElem_not_mem_eraseIdx hnd hj
  · rw [h2]; simp [List.length_eraseIdx, hj]

/-- Three selection steps from a duplicate-free pool of at least three
elements yield three members of the pool that are pairwise distinct. -/
theorem three_picks (avail : List Nat) (r1 r2 r3 : Nat) (hnd : avail.Nodup)
    (hlen : 3 ≤ avail.length) :
    (Sim.pickAndRemove avail r1).1 ∈ avail ∧
    (Sim.pickAndRemove (Sim.pickAndRemove avail r1).2 r2).1 ∈ avail ∧
    (Sim.pickAndRemove (Sim.pickAndRemove (Sim.pickAndRemove avail r1).2 r2).2 r3).1
      ∈ avail ∧
    (Sim.pickAndRemove avail r1).1 ≠
      (Sim.pickAndRemove (Sim.pickAndRemove avail r1).2 r2).1 ∧
    (Sim.pickAndRemove avail r1).1 ≠
      (Sim.pickAndRemove (Sim.pickAndRemove (Sim.pickAndRemove avail r1).2 r2).2 r3).1 ∧
    (Sim.pickAndRemove (Sim.pickAndRemove avail r1).2 r2).1 ≠
      (Sim.pickAndRemove (Sim.pickAndRemove (Sim.pickAndRemove avail r1).2 r2).2 r3).1 := by
  have hAne : avail ≠ [] := by
    intro h
    rw [h] at hlen
    simp at hlen
  obtain ⟨h1mem, h1sub, h1nd, h1nin, h1len⟩ := pickAndRemove_spec avail r1 hAne hnd
  have hBne : (Sim.pickAndRemove avail r1).2 ≠ [] := by
    intro h
    rw [h] at h1len
    simp at h1len
    omega
  obtain ⟨h2mem, h2sub, h2nd, h2nin, h2len⟩ :=
    pickAndRemove_spec (Sim.pickAndRemove avail r1).2 r2 hBne h1nd
  have hCne : (Sim.pickAndRemove (Sim.pickAndRemove avail r1).2 r2).2 ≠ [] := by
    intro h
    rw [h] at h2len
    rw [h1len] at h2len
    simp at h2len
    omega
  obtain ⟨h3mem, h3sub, h3nd, h3nin, h3len⟩ :=
    pickAndRemove_spec (Sim.pickAndRemove (Sim.pickAndRemove avail r1).2 r2).2 r3
      hCne h2nd
  refine ⟨h1mem, h1sub h2mem, h1sub (h2sub h3mem), ?_, ?_, ?_⟩
  · intro he
    exact h1nin (by rw [he]; exact h2mem)
  · intro he
    exact h1nin (by rw [he]; exact h2sub h3mem)
  · intro he
    exact h2nin (by rw [he]; exact h3mem)

/-- The remaining-horses pool of the simulator after the player's entry
is spliced out of the identity list. -/
theorem availableHorses_spec (p : Nat) (hp : p < 16) :
    ((List.range 16).eraseIdx p).Nodup ∧
    (∀ x ∈ (List.range 16).eraseIdx p, x < 16) ∧
    p ∉ (List.range 16).eraseIdx p ∧
    ((List.range 16).eraseIdx p).length = 15 := by
  have hnd := List.nodup_range 16
  have hp2 : p < (List.range 16).length := by simpa using hp
  refine ⟨List.Nodup.sublist (List.eraseIdx_sublist _ _) hnd, ?_, ?_, ?_⟩
  · intro x hx
    have hxr := (List.eraseIdx_sublist (List.range 16) p).subset hx
    simpa using hxr
  · intro hmem
    have hni := getElem_not_mem_eraseIdx hnd hp2
    rw [List.getElem_range] at hni
    exact hni hmem
  · simp [List.length_eraseIdx, hp2, hp]

/-- A three-element list with pairwise-distinct entries has no
duplicates. -/
theorem nodup_triple {x y z : Nat} (h1 : x ≠ y) (h2 : x ≠ z) (h3 : y ≠ z) :
    ([x, y, z] : List Nat).Nodup := by
  simp [List.nodup_cons, h1, h2, h3]

/-- All three entries of a triple below a bound. -/
theorem forall_triple_lt {x y z n : Nat} (h1 : x < n) (h2 : y < n) (h3 : z < n) :
    ∀ w ∈ ([x, y, z] : List Nat), w < n := by
  intro w hw
  rcases List.mem_cons.mp hw with h | hw2
  · rw [h]; exact h1
  rcases List.mem_cons.mp hw2 with h | hw3
  · rw [h]; exact h2
  rcases List.mem_cons.mp hw3 with h | hnil
  · rw [h]; exact h3
  · exact absurd hnil (List.not_mem_nil w)

/-- An element different from all three entries is not in the triple. -/
theorem not_mem_triple {p x y z : Nat} (h1 : x ≠ p) (h2 : y ≠ p) (h3 : z ≠ p) :
    p ∉ ([x, y, z] : List Nat) := by
  intro hmem
  rcases List.mem_cons.mp hmem with h | hmem2
  · exact h1 h.symm
  rcases List.mem_cons.mp hmem2 with h | hmem3
  · exact h2 h.symm
  rcases List.mem_cons.mp hmem3 with h | hnil
  · exact h3 h.symm
  · exact absurd hnil (List.not_mem_nil p)

/-- C10: for every player horse index in 0-15 and any random draws, the
simulator's `generateRandomWinners` returns exactly 3 pairwise-distinct
horse indices all in 0-15, with the player's horse in the list exactly
when the returned win flag is true; and the `ZoraPage` generator likewise
always returns 3 pairwise-distinct indices in 0-15. -/
theorem winner_generators_wellformed (p : Nat) (hp : p < 16) (f : Bool)
    (r0 r1 r2 r3 z1 z2 z3 : Nat) :
    ((Sim.generateRandomWinners p f r0 r1 r2 r3).1.length = 3 ∧
     (Sim.generateRandomWinners p f r0 r1 r2 r3).1.Nodup ∧
     (∀ w ∈ (Sim.generateRandomWinners p f r0 r1 r2 r3).1, w < 16) ∧
     (p ∈ (Sim.generateRandomWinners p f r0 r1 r2 r3).1 ↔
       (Sim.generateRandomWinners p f r0 r1 r2 r3).2 = true)) ∧
    ((Zora.generateRandomWinners z1 z2 z3).length = 3 ∧
     (Zora.generateRandomWinners z1 z2 z3).Nodup ∧
     (∀ w ∈ Zora.generateRandomWinners z1 z2 z3, w < 16)) := by
  constructor
  · obtain ⟨hAnd, hAlt, hApm, hAlen⟩ := availableHorses_spec p hp
    obtain ⟨m1, m2, m3, d12, d13, d23⟩ :=
      three_picks ((List.range 16).eraseIdx p) r1 r2 r3 hAnd (by omega)
    have hq1lt : (Sim.pickAndRemove ((List.range 16).eraseIdx p) r1).1 < 16 :=
      hAlt _ m1
    have hq2lt :
        (Sim.pickAndRemove (Sim.pickAndRemove ((List.range 16).eraseIdx p) r1).2 r2).1
          < 16 := hAlt _ m2
    have hq3lt :
        (Sim.pickAndRemove
          (Sim.pickAndRemove
            (Sim.pickAndRemove ((List.range 16).eraseIdx p) r1).2 r2).2 r3).1 < 16 :=
      hAlt _ m3
    have hq1p : (Sim.pickAndRemove ((List.range 16).eraseIdx p) r1).1 ≠ p := by
      intro he
      rw [he] at m1
      exact hApm m1
    have hq2p :
        (Sim.pickAndRemove (Sim.pickAndRemove ((List.range 16).eraseIdx p) r1).2 r2).1
          ≠ p := by
      intro he
      rw [he] at m2
      exact hApm m2
    have hq3p :
        (Sim.pickAndRemove
          (Sim.pickAndRemove
            (Sim.pickAndRemove ((List.range 16).eraseIdx p) r1).2 r2).2 r3).1 ≠ p := by
      intro he
      rw [he] at m3
      exact hApm m3
    cases f with
    | false =>
      simp only [Sim.generateRandomWinners, Bool.false_eq_true, if_false]
      refine ⟨rfl, nodup_triple d12 d13 d23,
              forall_triple_lt hq1lt hq2lt hq3lt, ?_⟩
      simp only [Bool.false_eq_true, iff_false]
      exact not_mem_triple hq1p hq2p hq3p
    | true =>
      have hcase : r0 % 3 = 0 ∨ r0 % 3 = 1 ∨ r0 % 3 = 2 := by omega
      rcases hcase with h0 | h0 | h0 <;>
        simp only [Sim.generateRandomWinners, h0, if_true, reduceIte]
      · exact ⟨rfl, nodup_triple (Ne.symm hq1p) (Ne.symm hq2p) d12,
               forall_triple_lt hp hq1lt hq2lt, by simp⟩
      · exact ⟨rfl, nodup_triple hq1p d12 (Ne.symm hq2p),
               forall_triple_lt hq1lt hp hq2lt, by simp⟩
      · exact ⟨rfl, nodup_triple d12 hq1p hq2p,
               forall_triple_lt hq1lt hq2lt hp, by simp⟩
  · obtain ⟨m1, m2, m3, d12, d13, d23⟩ :=
      three_picks (List.range 16) z1 z2 z3 (List.nodup_range 16) (by simp)
    simp only [Zora.generateRandomWinners]
    exact ⟨rfl, nodup_triple d12 d13 d23,
           forall_triple_lt (List.mem_range.mp m1) (List.mem_range.mp m2)
             (List.mem_range.mp m3)⟩

/-- C10 witness: the generators evaluated at concrete draws. -/
theorem winner_generators_wellformed_witness :
    (((Sim.generateRandomWinners 3 true 0 1 2 3).1.length = 3 ∧
      (Sim.generateRandomWinners 3 true 0 1 2 3).1.Nodup ∧
      (∀ w ∈ (Sim.generateRandomWinners 3 true 0 1 2 3).1, w < 16) ∧
      (3 ∈ (Sim.generateRandomWinners 3 true 0 1 2 3).1 ↔
        (Sim.generateRandomWinners 3 true 0 1 2 3).2 = true)) ∧
     ((Zora.generateRandomWinners 4 5 6).length = 3 ∧
      (Zora.generateRandomWinners 4 5 6).Nodup ∧
      (∀ w ∈ Zora.generateRandomWinners 4 5 6, w < 16))) :=
  winner_generators_wellformed 3 (by decide) true 0 1 2 3 4 5 6

end PixelPony
